import Mathlib

/-!
# wifi-radar: the server entry point (`cmd/server/main.go`)

A shallow embedding of `ifList.Set`, of `main` (flag handling and start-up
sequence) and of `collectLoop` (the scheduler loop), followed by the
properties of the scheduler and of the process configuration.

Conventions of the embedding.

* Go's `flag` package, `log`, `net/http`, `time` and the packages
  `internal/collector` and `internal/store` are not part of `main.go`.
  What `main.go` does with them is kept: the calls it makes, their arguments
  and their order.  A command line is the list of flag occurrences that
  `flag.Parse` meets, already split into name and typed value.
* `Collector.Collect` and `Store.Update` are parameters (`Env`): the loop is
  verified for every behaviour of the collectors, including a call that
  never returns, and for every store.
* `time.Duration` is an `Int` number of nanoseconds.
* `collectLoop` never returns; it is a transition system (`step`) whose
  states carry the program point, the store, the chronological trace of the
  calls made so far and two counters (passes started, ticks received).
-/

namespace WifiRadar

/-! ## `ifList` (lines 18-30) -/

/-- The type `ifList []string`. -/
abbrev ifList := List String

/-- The method `(*ifList).Set` (lines 24-30): the returned error (`none` is
`nil`) and the list the receiver points to afterwards. -/
def ifList.Set (i : ifList) (value : String) : Option String × ifList :=
  if value = "" then
    (some "interface name cannot be empty", i)
  else
    (none, i ++ [value])

/-! ## `main` (lines 32-71) -/

/-- The constant `time.Millisecond`, in nanoseconds. -/
def Millisecond : Int := 1000000

/-- One flag occurrence met by `flag.Parse` on the command line. -/
inductive FlagOcc where
  /-- The occurrence `-if value`. -/
  | ifname (value : String)
  /-- The occurrence `-interval d`, the text already read by
  `time.ParseDuration`. -/
  | interval (d : Int)
  /-- The occurrence `-listen addr`. -/
  | listen (addr : String)
  /-- The occurrence `-public` (`b = true`) or `-public=b`. -/
  | public (b : Bool)
  /-- The occurrence `-h` or `-help`. -/
  | help
  /-- An occurrence `flag.Parse` rejects: a flag that is not defined, or a
  value that does not parse. -/
  | invalid
  deriving DecidableEq, Repr

/-- The four variables of `main` bound to flags (lines 33-38). -/
structure Flags where
  ifs : ifList
  interval : Int
  listen : String
  public : Bool
  deriving DecidableEq, Repr

/-- The values of the variables after the flag definitions of lines 40-43,
before `flag.Parse`. -/
def flagDefaults : Flags :=
  { ifs := [], interval := 500 * Millisecond, listen := "127.0.0.1:8888", public := false }

/-- The call `flag.Parse()` (line 44) on the command-line flag set, whose
error handling is `flag.ExitOnError`: occurrences are handled left to right,
each by the `Set` of its flag; the first failure ends the process (status 0
for help, 2 otherwise), which is the `Except.error` result. -/
def flagParse : List FlagOcc → Flags → Except Nat Flags
  | [], f => .ok f
  | .ifname v :: rest, f =>
    match ifList.Set f.ifs v with
    | (some _, _) => .error 2
    | (none, l) => flagParse rest { f with ifs := l }
  | .interval d :: rest, f => flagParse rest { f with interval := d }
  | .listen a :: rest, f => flagParse rest { f with listen := a }
  | .public b :: rest, f => flagParse rest { f with public := b }
  | .help :: _, _ => .error 0
  | .invalid :: _, _ => .error 2

/-- The calls of `main` that the properties are about, in program order. -/
inductive Action where
  /-- The call `os.Exit(code)` made inside `flag.Parse`. -/
  | flagExit (code : Nat)
  /-- The call `log.Fatalf(msg)`, which ends the process. -/
  | logFatalf (msg : String)
  /-- The call `store.New(capacity)` (line 54). -/
  | storeNew (capacity : Nat)
  /-- The statement `go collectLoop(st, ifs, interval)` (line 65). -/
  | goCollectLoop (ifs : List String) (interval : Int)
  /-- The call `http.ListenAndServe(addr, mux)` (line 68). -/
  | listenAndServe (addr : String)
  /-- The panic of `time.NewTicker` (line 79) in the goroutine started at
  line 65, which nothing recovers: it ends the process. -/
  | goPanic
  deriving DecidableEq, Repr

/-- The message of the fatal error of line 47. -/
def noInterfacesMsg : String := "no interfaces provided; use --if <ifname>"

/-- The function `main` (lines 32-71) as the sequence of its calls.  `cwd` is
the result of `os.Getwd` in `mustCwd` (lines 98-104): the directory, or the
text of its error.  The goroutine of line 65 runs beside `main`: when the
interval is not positive it panics in `time.NewTicker` (line 79) and the
process ends, before `main` reaches line 68 (`early = true`) or after it
(`early = false`); for a positive interval `early` plays no part.  The
registration of the handlers (lines 55-63) and the log line of line 67 change
none of the variables and are left out, as is what follows the return of
`http.ListenAndServe`. -/
def main (args : List FlagOcc) (cwd : Except String String) (early : Bool) : List Action :=
  match flagParse args flagDefaults with
  | .error code => [.flagExit code]
  | .ok f =>
    if f.ifs.length = 0 then
      [.logFatalf noInterfacesMsg]
    else
      let listen := if f.public then "0.0.0.0:8888" else f.listen
      match cwd with
      | .error e => [.storeNew 8, .logFatalf ("get cwd: " ++ e)]
      | .ok _ =>
        if f.interval ≤ 0 then
          if early then
            [.storeNew 8, .goCollectLoop f.ifs f.interval, .goPanic]
          else
            [.storeNew 8, .goCollectLoop f.ifs f.interval, .listenAndServe listen, .goPanic]
        else
          [.storeNew 8, .goCollectLoop f.ifs f.interval, .listenAndServe listen]

/-! ## `collectLoop` (lines 73-96) -/

/-- The type `collector.Collector`, of which `main.go` uses the field
`IfName`. -/
structure Collector where
  IfName : String
  deriving DecidableEq, Repr

/-- A Go `error` value as `errors.Is` sees it: the sentinel
`collector.ErrNotConnected`, another error that wraps nothing, or an error
with a text of its own that wraps one error (`Unwrap`, as `fmt.Errorf` with
`%w` builds). -/
inductive GoError where
  | ErrNotConnected
  | other (text : String)
  | wrap (text : String) (inner : GoError)
  deriving DecidableEq, Repr

/-- The function `errors.Is(err, target)`: `err` is `target`, or wraps an
error that is. -/
def errorsIs (err target : GoError) : Bool :=
  if err = target then true
  else
    match err with
    | .wrap _ inner => errorsIs inner target
    | _ => false

/-- What one call `c.Collect()` does: return a sample with a nil error,
return a non-nil error, or never return. -/
inductive Outcome (Sample : Type) where
  | ok (sample : Sample)
  | err (e : GoError)
  | hang
  deriving DecidableEq, Repr

/-- The two functions `collectLoop` calls from other packages.  `Collect k j c`
is what `c.Collect()` does when it is called for position `j` of the collector
list after `k` ticks have been received; `Update st sample` is the store after
`st.Update(sample)`. -/
structure Env (Sample Store : Type) where
  Collect : Nat → Nat → Collector → Outcome Sample
  Update : Store → Sample → Store

/-- A call made by `collectLoop`, or a tick it received. -/
inductive Event (Sample : Type) where
  /-- The call `c.Collect()` was made (line 84). -/
  | collect (c : Collector)
  /-- The call `st.Update(sample)` (line 92). -/
  | update (sample : Sample)
  /-- The call `log.Printf("collect %s: %v", ifname, e)` (line 89). -/
  | logPrintf (ifname : String) (e : GoError)
  /-- A value was received from `ticker.C` (line 94). -/
  | tick
  deriving DecidableEq, Repr

/-- Program points of `collectLoop`. -/
inductive PC where
  /-- The call `time.NewTicker` panicked (line 79): the duration was not
  positive. -/
  | panicked
  /-- Line 83, about to take the collector at position `j` of the range
  loop (or to leave the range loop when there is none). -/
  | range (j : Nat)
  /-- Line 84, inside the call `c.Collect()` for position `j`, which never
  returns. -/
  | blocked (j : Nat)
  /-- Line 94, waiting to receive from `ticker.C`. -/
  | wait
  deriving DecidableEq, Repr

/-- A state of `collectLoop`: its local variable `collectors`, the duration
its `ticker` was built with (`none` when `time.NewTicker` panicked), the
program point, the store behind `st`, the trace of the calls made so far
(oldest first), the number of passes over `collectors` started and the number
of ticks received. -/
structure LoopState (Sample Store : Type) where
  collectors : List Collector
  ticker : Option Int
  pc : PC
  st : Store
  trace : List (Event Sample)
  passes : Nat
  ticks : Nat
  deriving DecidableEq, Repr

section Loop

variable {Sample Store : Type}

/-- Entry of `collectLoop(st, ifs, interval)` up to the first statement of
the outer `for` (lines 73-83): the collectors are built, one per name and in
the order of `ifs`; `time.NewTicker(interval)` panics unless `interval` is
positive; otherwise the first pass starts at position 0. -/
def collectLoop (st : Store) (ifs : List String) (interval : Int) : LoopState Sample Store :=
  let collectors := ifs.map (fun ifname => ({ IfName := ifname } : Collector))
  if interval ≤ 0 then
    { collectors := collectors, ticker := none, pc := .panicked, st := st, trace := [],
      passes := 0, ticks := 0 }
  else
    { collectors := collectors, ticker := some interval, pc := .range 0, st := st, trace := [],
      passes := 1, ticks := 0 }

/-- One transition of `collectLoop` (lines 82-95): at `range j` one iteration
of the range loop over `collectors`, or its exit to the receive of line 94; at
`wait` the receipt of a tick, which starts the next pass. -/
def step (env : Env Sample Store) (s : LoopState Sample Store) : LoopState Sample Store :=
  match s.pc with
  | .panicked => s
  | .blocked _ => s
  | .wait =>
    { s with pc := .range 0, trace := s.trace ++ [.tick],
             passes := s.passes + 1, ticks := s.ticks + 1 }
  | .range j =>
    match s.collectors[j]? with
    | none => { s with pc := .wait }
    | some c =>
      match env.Collect s.ticks j c with
      | .hang => { s with pc := .blocked j, trace := s.trace ++ [.collect c] }
      | .err e =>
        if errorsIs e .ErrNotConnected then
          { s with pc := .range (j + 1), trace := s.trace ++ [.collect c] }
        else
          { s with pc := .range (j + 1),
                   trace := s.trace ++ [.collect c, .logPrintf c.IfName e] }
      | .ok sample =>
        { s with pc := .range (j + 1), st := env.Update s.st sample,
                 trace := s.trace ++ [.collect c, .update sample] }

/-- The state `n` transitions after `s`. -/
def run (env : Env Sample Store) : Nat → LoopState Sample Store → LoopState Sample Store
  | 0, s => s
  | n + 1, s => run env n (step env s)

/-- The samples passed to `st.Update` in a trace, in order. -/
def updatesOf : List (Event Sample) → List Sample
  | [] => []
  | .update sample :: t => sample :: updatesOf t
  | _ :: t => updatesOf t

/-- The `log.Printf` calls of a trace, in order: interface name and error. -/
def logsOf : List (Event Sample) → List (String × GoError)
  | [] => []
  | .logPrintf ifname e :: t => (ifname, e) :: logsOf t
  | _ :: t => logsOf t

/-- The collectors on which `Collect` was called in a trace, in order. -/
def collectsOf : List (Event Sample) → List Collector
  | [] => []
  | .collect c :: t => c :: collectsOf t
  | _ :: t => collectsOf t

/-- The number of ticks received in a trace. -/
def ticksOf : List (Event Sample) → Nat
  | [] => 0
  | .tick :: t => ticksOf t + 1
  | _ :: t => ticksOf t

/-- The samples returned with a nil error by `Collect` for the collectors
`cs`, which stand at positions `j`, `j + 1`, ... of the list, after `k` ticks:
in the order of `cs`, one per successful collector. -/
def okSamplesFrom (env : Env Sample Store) (k : Nat) : Nat → List Collector → List Sample
  | _, [] => []
  | j, c :: cs =>
    match env.Collect k j c with
    | .ok sample => sample :: okSamplesFrom env k (j + 1) cs
    | _ => okSamplesFrom env k (j + 1) cs

/-- Whether every call `Collect` for the collectors `cs`, at positions `j`,
`j + 1`, ... after `k` ticks, returns. -/
def allReturn (env : Env Sample Store) (k : Nat) : Nat → List Collector → Bool
  | _, [] => true
  | j, c :: cs =>
    match env.Collect k j c with
    | .hang => false
    | _ => allReturn env k (j + 1) cs

/-- The trace of the iterations of the range loop (lines 83-93) for the
collectors `cs` at positions `j`, `j + 1`, ... after `k` ticks, up to the
first call that never returns. -/
def passEvents (env : Env Sample Store) (k : Nat) : Nat → List Collector → List (Event Sample)
  | _, [] => []
  | j, c :: cs =>
    match env.Collect k j c with
    | .hang => [.collect c]
    | .err e =>
      if errorsIs e .ErrNotConnected then
        .collect c :: passEvents env k (j + 1) cs
      else
        .collect c :: .logPrintf c.IfName e :: passEvents env k (j + 1) cs
    | .ok sample => .collect c :: .update sample :: passEvents env k (j + 1) cs

/-- The trace of the first `n` rounds of the outer loop when every call
returns: round `k` is one full pass over `cs` followed by the receipt of one
tick. -/
def loopTrace (env : Env Sample Store) (cs : List Collector) : Nat → List (Event Sample)
  | 0 => []
  | n + 1 => loopTrace env cs n ++ (passEvents env n 0 cs ++ [.tick])

end Loop

/-! ## The command line seen by `main` -/

/-- The values of the `-if` occurrences of a command line, in order. -/
def ifValues : List FlagOcc → List String
  | [] => []
  | .ifname v :: rest => v :: ifValues rest
  | _ :: rest => ifValues rest

/-- The value of the last `-interval` occurrence of a command line. -/
def lastInterval : List FlagOcc → Option Int
  | [] => none
  | .interval d :: rest => some ((lastInterval rest).getD d)
  | _ :: rest => lastInterval rest

/-- The value of the last `-listen` occurrence of a command line. -/
def lastListen : List FlagOcc → Option String
  | [] => none
  | .listen a :: rest => some ((lastListen rest).getD a)
  | _ :: rest => lastListen rest

/-- The value of the last `-public` occurrence of a command line. -/
def lastPublic : List FlagOcc → Option Bool
  | [] => none
  | .public b :: rest => some ((lastPublic rest).getD b)
  | _ :: rest => lastPublic rest

/-! ## Example collectors -/

/-- An example environment: samples are numbers and the store is the list of
the samples it was given.  Position 0 returns a sample, position 1 is not
connected (the sentinel, wrapped), position 2 fails otherwise, every later
position returns the sample 7. -/
def exampleEnv : Env Nat (List Nat) where
  Collect := fun k j _ =>
    match j with
    | 0 => .ok (10 * k + 1)
    | 1 => .err (.wrap "wlan1: link down" .ErrNotConnected)
    | 2 => .err (.other "exit status 1")
    | _ => .ok 7
  Update := fun st sample => st ++ [sample]

/-- An example environment in which the call for position 0 never returns
and every other call returns the sample 7. -/
def hungEnv : Env Nat (List Nat) where
  Collect := fun _ j _ =>
    match j with
    | 0 => .hang
    | _ => .ok 7
  Update := fun st sample => st ++ [sample]

/-- The loop started on four interface names, one of them twice, with the
default interval. -/
def exampleStart : LoopState Nat (List Nat) :=
  collectLoop [] ["wlan0", "wlan1", "wlan2", "wlan0"] 500000000

/-! ## Lemmas on `flagParse` and `main` -/

theorem flagParse_fields (args : List FlagOcc) :
    ∀ f g : Flags, flagParse args f = .ok g →
      g.ifs = f.ifs ++ ifValues args ∧ (∀ v ∈ ifValues args, v ≠ "") ∧
      g.interval = (lastInterval args).getD f.interval ∧
      g.listen = (lastListen args).getD f.listen ∧
      g.public = (lastPublic args).getD f.public := by
  induction args with
  | nil =>
    intro f g h
    simp only [flagParse, Except.ok.injEq] at h
    subst h
    simp [ifValues, lastInterval, lastListen, lastPublic]
  | cons a rest ih =>
    intro f g h
    cases a with
    | ifname v =>
      by_cases hv : v = ""
      · simp [flagParse, ifList.Set, hv] at h
      · simp only [flagParse, ifList.Set, hv, if_false] at h
        obtain ⟨h1, h2, h3, h4, h5⟩ := ih _ g h
        refine ⟨?_, ?_, ?_, ?_, ?_⟩
        · simpa [ifValues] using h1
        · intro w hw
          simp only [ifValues, List.mem_cons] at hw
          rcases hw with rfl | hw
          · exact hv
          · exact h2 w hw
        · simpa [lastInterval] using h3
        · simpa [lastListen] using h4
        · simpa [lastPublic] using h5
    | interval d =>
      simp only [flagParse] at h
      obtain ⟨h1, h2, h3, h4, h5⟩ := ih _ g h
      refine ⟨by simpa [ifValues] using h1, by simpa [ifValues] using h2, ?_,
        by simpa [lastListen] using h4, by simpa [lastPublic] using h5⟩
      cases hl : lastInterval rest <;> simp [lastInterval, hl] at h3 ⊢ <;> exact h3
    | listen a =>
      simp only [flagParse] at h
      obtain ⟨h1, h2, h3, h4, h5⟩ := ih _ g h
      refine ⟨by simpa [ifValues] using h1, by simpa [ifValues] using h2,
        by simpa [lastInterval] using h3, ?_, by simpa [lastPublic] using h5⟩
      cases hl : lastListen rest <;> simp [lastListen, hl] at h4 ⊢ <;> exact h4
    | public b =>
      simp only [flagParse] at h
      obtain ⟨h1, h2, h3, h4, h5⟩ := ih _ g h
      refine ⟨by simpa [ifValues] using h1, by simpa [ifValues] using h2,
        by simpa [lastInterval] using h3, by simpa [lastListen] using h4, ?_⟩
      cases hl : lastPublic rest <;> simp [lastPublic, hl] at h5 ⊢ <;> exact h5
    | help => simp [flagParse] at h
    | invalid => simp [flagParse] at h

theorem lastInterval_none (args : List FlagOcc) (h : ∀ d, FlagOcc.interval d ∉ args) :
    lastInterval args = none := by
  induction args with
  | nil => rfl
  | cons a rest ih =>
    have hr : ∀ d, FlagOcc.interval d ∉ rest := fun d hd => h d (List.mem_cons_of_mem _ hd)
    cases a with
    | interval d => exact absurd (List.mem_cons_self _ _) (h d)
    | _ => simpa [lastInterval] using ih hr

theorem lastInterval_append (pre post : List FlagOcc) (d : Int)
    (h : ∀ d2, FlagOcc.interval d2 ∉ post) :
    lastInterval (pre ++ FlagOcc.interval d :: post) = some d := by
  induction pre with
  | nil => simp [lastInterval, lastInterval_none post h]
  | cons a rest ih => cases a <;> simp [lastInterval, ih]

theorem lastListen_none (args : List FlagOcc) (h : ∀ a, FlagOcc.listen a ∉ args) :
    lastListen args = none := by
  induction args with
  | nil => rfl
  | cons a rest ih =>
    have hr : ∀ d, FlagOcc.listen d ∉ rest := fun d hd => h d (List.mem_cons_of_mem _ hd)
    cases a with
    | listen d => exact absurd (List.mem_cons_self _ _) (h d)
    | _ => simpa [lastListen] using ih hr

theorem lastListen_append (pre post : List FlagOcc) (a : String)
    (h : ∀ a2, FlagOcc.listen a2 ∉ post) :
    lastListen (pre ++ FlagOcc.listen a :: post) = some a := by
  induction pre with
  | nil => simp [lastListen, lastListen_none post h]
  | cons x rest ih => cases x <;> simp [lastListen, ih]

theorem lastPublic_none (args : List FlagOcc) (h : ∀ b, FlagOcc.public b ∉ args) :
    lastPublic args = none := by
  induction args with
  | nil => rfl
  | cons a rest ih =>
    have hr : ∀ d, FlagOcc.public d ∉ rest := fun d hd => h d (List.mem_cons_of_mem _ hd)
    cases a with
    | public d => exact absurd (List.mem_cons_self _ _) (h d)
    | _ => simpa [lastPublic] using ih hr

theorem lastPublic_append (pre post : List FlagOcc) (b : Bool)
    (h : ∀ b2, FlagOcc.public b2 ∉ post) :
    lastPublic (pre ++ FlagOcc.public b :: post) = some b := by
  induction pre with
  | nil => simp [lastPublic, lastPublic_none post h]
  | cons x rest ih => cases x <;> simp [lastPublic, ih]

theorem main_of_exit (args : List FlagOcc) (cwd : Except String String) (early : Bool)
    (code : Nat) (h : flagParse args flagDefaults = .error code) :
    main args cwd early = [.flagExit code] := by
  simp [main, h]

theorem main_of_no_interface (args : List FlagOcc) (cwd : Except String String) (early : Bool)
    (f : Flags) (h : flagParse args flagDefaults = .ok f) (hifs : f.ifs = []) :
    main args cwd early = [.logFatalf noInterfacesMsg] := by
  simp [main, h, hifs]

theorem main_of_cwd_error (args : List FlagOcc) (e : String) (early : Bool) (f : Flags)
    (h : flagParse args flagDefaults = .ok f) (hifs : f.ifs ≠ []) :
    main args (.error e) early = [.storeNew 8, .logFatalf ("get cwd: " ++ e)] := by
  simp [main, h, hifs]

theorem main_of_started (args : List FlagOcc) (dir : String) (early : Bool) (f : Flags)
    (h : flagParse args flagDefaults = .ok f) (hifs : f.ifs ≠ []) (hpos : 0 < f.interval) :
    main args (.ok dir) early =
      [.storeNew 8, .goCollectLoop f.ifs f.interval,
       .listenAndServe (if f.public then "0.0.0.0:8888" else f.listen)] := by
  have hint : ¬ f.interval ≤ 0 := by omega
  simp [main, h, hifs, hint]

theorem main_of_panic_early (args : List FlagOcc) (dir : String) (f : Flags)
    (h : flagParse args flagDefaults = .ok f) (hifs : f.ifs ≠ []) (hint : f.interval ≤ 0) :
    main args (.ok dir) true = [.storeNew 8, .goCollectLoop f.ifs f.interval, .goPanic] := by
  simp [main, h, hifs, hint]

theorem main_of_panic_late (args : List FlagOcc) (dir : String) (f : Flags)
    (h : flagParse args flagDefaults = .ok f) (hifs : f.ifs ≠ []) (hint : f.interval ≤ 0) :
    main args (.ok dir) false =
      [.storeNew 8, .goCollectLoop f.ifs f.interval,
       .listenAndServe (if f.public then "0.0.0.0:8888" else f.listen), .goPanic] := by
  simp [main, h, hifs, hint]

/-- The runs of `main` once the store is created and the working directory
is known: all start the loop with the parsed list and interval. -/
theorem main_of_cwd_ok (args : List FlagOcc) (dir : String) (early : Bool) (f : Flags)
    (h : flagParse args flagDefaults = .ok f) (hifs : f.ifs ≠ []) :
    main args (.ok dir) early =
        [.storeNew 8, .goCollectLoop f.ifs f.interval,
         .listenAndServe (if f.public then "0.0.0.0:8888" else f.listen)] ∨
    main args (.ok dir) early = [.storeNew 8, .goCollectLoop f.ifs f.interval, .goPanic] ∨
    main args (.ok dir) early =
        [.storeNew 8, .goCollectLoop f.ifs f.interval,
         .listenAndServe (if f.public then "0.0.0.0:8888" else f.listen), .goPanic] := by
  rcases Int.lt_or_le 0 f.interval with hpos | hint
  · exact Or.inl (main_of_started args dir early f h hifs hpos)
  · cases early with
    | true => exact Or.inr (Or.inl (main_of_panic_early args dir f h hifs hint))
    | false => exact Or.inr (Or.inr (main_of_panic_late args dir f h hifs hint))

/-- Whenever `main` starts the loop, it is with the parsed list, which is not
empty, and the parsed interval. -/
theorem main_goCollectLoop_mem (args : List FlagOcc) (cwd : Except String String) (early : Bool)
    (ifs : List String) (interval : Int)
    (hmem : Action.goCollectLoop ifs interval ∈ main args cwd early) :
    ∃ f, flagParse args flagDefaults = .ok f ∧ f.ifs ≠ [] ∧ ifs = f.ifs ∧
      interval = f.interval := by
  cases hp : flagParse args flagDefaults with
  | error code => simp [main_of_exit args cwd early code hp] at hmem
  | ok f =>
    by_cases hifs : f.ifs = []
    · simp [main_of_no_interface args cwd early f hp hifs] at hmem
    · cases cwd with
      | error e => simp [main_of_cwd_error args e early f hp hifs] at hmem
      | ok dir =>
        refine ⟨f, rfl, hifs, ?_⟩
        rcases main_of_cwd_ok args dir early f hp hifs with h | h | h <;>
          · rw [h] at hmem
            simp at hmem
            try exact hmem

/-- Whenever `main` listens, it is on the address chosen at lines 50-52. -/
theorem main_listenAndServe_mem (args : List FlagOcc) (cwd : Except String String)
    (early : Bool) (addr : String)
    (hmem : Action.listenAndServe addr ∈ main args cwd early) :
    ∃ f, flagParse args flagDefaults = .ok f ∧ f.ifs ≠ [] ∧
      addr = (if f.public then "0.0.0.0:8888" else f.listen) := by
  cases hp : flagParse args flagDefaults with
  | error code => simp [main_of_exit args cwd early code hp] at hmem
  | ok f =>
    by_cases hifs : f.ifs = []
    · simp [main_of_no_interface args cwd early f hp hifs] at hmem
    · cases cwd with
      | error e => simp [main_of_cwd_error args e early f hp hifs] at hmem
      | ok dir =>
        refine ⟨f, rfl, hifs, ?_⟩
        rcases main_of_cwd_ok args dir early f hp hifs with h | h | h <;>
          · rw [h] at hmem
            simp at hmem
            try exact hmem

theorem getCwd_msg_ne (e : String) : "get cwd: " ++ e ≠ noInterfacesMsg := by
  intro h
  have h2 := congrArg String.data h
  simp [noInterfacesMsg, String.data_append] at h2

/-! ## Process configuration -/

/-- C5: `main` fails fast when no interface is given.  When `flag.Parse` never
set the interface option successfully (it ended the process, or it returned
with an empty list), `main` is only the fatal error of line 47 or the exit of
`flag.Parse`: no store is created, the collection loop is not started and no
address is listened on.  When it returned with an empty list the run is that
fatal error; when it returned with a non-empty list the fatal branch is not
taken and the store is created. -/
theorem main_fails_fast_without_interface (args : List FlagOcc) (cwd : Except String String)
    (early : Bool) :
    ((∀ f, flagParse args flagDefaults = .ok f → f.ifs = []) →
      (main args cwd early = [.logFatalf noInterfacesMsg] ∨
        ∃ code, main args cwd early = [.flagExit code]) ∧
      (∀ a ∈ main args cwd early, (∀ n, a ≠ .storeNew n) ∧ (∀ ifs d, a ≠ .goCollectLoop ifs d) ∧
        ∀ addr, a ≠ .listenAndServe addr)) ∧
    (∀ f, flagParse args flagDefaults = .ok f → f.ifs = [] →
      main args cwd early = [.logFatalf noInterfacesMsg]) ∧
    (∀ f, flagParse args flagDefaults = .ok f → f.ifs ≠ [] →
      (main args cwd early).head? = some (.storeNew 8) ∧
      Action.logFatalf noInterfacesMsg ∉ main args cwd early) := by
  refine ⟨?_, ?_, ?_⟩
  · intro hall
    cases hp : flagParse args flagDefaults with
    | error code =>
      rw [main_of_exit args cwd early code hp]
      exact ⟨Or.inr ⟨code, rfl⟩, by simp⟩
    | ok f =>
      rw [main_of_no_interface args cwd early f hp (hall f hp)]
      exact ⟨Or.inl rfl, by simp⟩
  · intro f hp hifs
    exact main_of_no_interface args cwd early f hp hifs
  · intro f hp hifs
    cases cwd with
    | error e =>
      rw [main_of_cwd_error args e early f hp hifs]
      refine ⟨rfl, ?_⟩
      simp only [List.mem_cons, List.mem_singleton, Action.logFatalf.injEq, not_or]
      refine ⟨by simp, fun h => getCwd_msg_ne e h.symm, by simp⟩
    | ok dir =>
      rcases main_of_cwd_ok args dir early f hp hifs with h | h | h <;>
        · rw [h]
          exact ⟨rfl, by simp⟩

/-- Witness of C5: the empty command line, the command line `-if ""` and the
command line `-if wlan0`. -/
theorem main_fails_fast_without_interface_witness :
    main [] (.ok "/srv") false = [.logFatalf noInterfacesMsg] ∧
    (main [.ifname ""] (.ok "/srv") false = [.logFatalf noInterfacesMsg] ∨
      ∃ code, main [.ifname ""] (.ok "/srv") false = [.flagExit code]) ∧
    (main [.ifname "wlan0"] (.ok "/srv") false).head? = some (.storeNew 8) :=
  ⟨(main_fails_fast_without_interface [] (.ok "/srv") false).2.1 flagDefaults rfl rfl,
   ((main_fails_fast_without_interface [.ifname ""] (.ok "/srv") false).1
      (fun f h => by simp [flagParse, ifList.Set] at h)).1,
   ((main_fails_fast_without_interface [.ifname "wlan0"] (.ok "/srv") false).2.2
      { flagDefaults with ifs := ["wlan0"] } (by simp [flagParse, ifList.Set, flagDefaults])
      (by simp)).1⟩

/-- C6: `ifList.Set` returns an error exactly when the value is the empty
string, and then leaves the list as it was; and the list `main` hands to
`collectLoop` never holds an empty name. -/
theorem ifList_Set_rejects_only_empty :
    (∀ (i : ifList) (value : String),
      ((ifList.Set i value).1.isSome = true ↔ value = "") ∧
      (value = "" → (ifList.Set i value).2 = i)) ∧
    (∀ (args : List FlagOcc) (cwd : Except String String) (early : Bool) (ifs : List String)
      (interval : Int),
      Action.goCollectLoop ifs interval ∈ main args cwd early → "" ∉ ifs) := by
  refine ⟨?_, ?_⟩
  · intro i value
    by_cases hv : value = "" <;> simp [ifList.Set, hv]
  · intro args cwd early ifs interval hmem
    obtain ⟨f, hp, -, rfl, -⟩ := main_goCollectLoop_mem args cwd early ifs interval hmem
    obtain ⟨h1, h2, -⟩ := flagParse_fields args flagDefaults f hp
    intro hin
    rw [h1] at hin
    simp only [flagDefaults, List.nil_append] at hin
    exact h2 "" hin rfl

/-- Witness of C6: `Set` on `["wlan0"]` with the empty string and with
`"wlan1"`, and the list started by the command line `-if wlan0 -if wlan1`. -/
theorem ifList_Set_rejects_only_empty_witness :
    (ifList.Set ["wlan0"] "").2 = ["wlan0"] ∧
    ((ifList.Set ["wlan0"] "wlan1").1.isSome = true ↔ "wlan1" = "") ∧
    "" ∉ ["wlan0", "wlan1"] :=
  ⟨(ifList_Set_rejects_only_empty.1 ["wlan0"] "").2 rfl,
   (ifList_Set_rejects_only_empty.1 ["wlan0"] "wlan1").1,
   ifList_Set_rejects_only_empty.2 [.ifname "wlan0", .ifname "wlan1"] (.ok "/srv") false
     ["wlan0", "wlan1"] (500 * Millisecond)
     (by simp [main, flagParse, ifList.Set, flagDefaults, Millisecond])⟩

/-- C7: the interface option is repeatable.  `Set` with a non-empty value
returns no error and appends the value; a sequence of `Set` calls with
non-empty values on the empty list leaves exactly these values, in order and
with duplicates; and whenever `flag.Parse` returns, the list is the sequence
of the values of the `-if` occurrences. -/
theorem ifList_Set_appends_in_order :
    (∀ (l : ifList) (v : String), v ≠ "" → ifList.Set l v = (none, l ++ [v])) ∧
    (∀ vs : List String, (∀ v ∈ vs, v ≠ "") →
      vs.foldl (fun l v => (ifList.Set l v).2) ([] : ifList) = vs ∧
      flagParse (vs.map FlagOcc.ifname) flagDefaults = .ok { flagDefaults with ifs := vs }) ∧
    (∀ (args : List FlagOcc) (f : Flags), flagParse args flagDefaults = .ok f →
      f.ifs = ifValues args) := by
  refine ⟨?_, ?_, ?_⟩
  · intro l v hv
    simp [ifList.Set, hv]
  · intro vs hvs
    have key : ∀ (ws : List String) (l : ifList) (f : Flags), (∀ v ∈ ws, v ≠ "") →
        ws.foldl (fun l v => (ifList.Set l v).2) l = l ++ ws ∧
        flagParse (ws.map FlagOcc.ifname) f = .ok { f with ifs := f.ifs ++ ws } := by
      intro ws
      induction ws with
      | nil => intro l f _; simp [flagParse]
      | cons w rest ih =>
        intro l f hw
        have hw0 : w ≠ "" := hw w (List.mem_cons_self _ _)
        have hrest : ∀ v ∈ rest, v ≠ "" := fun v hv => hw v (List.mem_cons_of_mem _ hv)
        constructor
        · have h1 : (ifList.Set l w).2 = l ++ [w] := by simp [ifList.Set, hw0]
          rw [List.foldl_cons, h1, (ih (l ++ [w]) f hrest).1]
          simp
        · simp [flagParse, ifList.Set, hw0, (ih l { f with ifs := f.ifs ++ [w] } hrest).2]
    have h := key vs [] flagDefaults hvs
    simpa [flagDefaults] using h
  · intro args f hp
    have h := (flagParse_fields args flagDefaults f hp).1
    simpa [flagDefaults] using h

/-- Witness of C7: `Set` with `"wlan1"` on `["wlan0"]`, and the values
`wlan0`, `wlan1`, `wlan0` set in turn. -/
theorem ifList_Set_appends_in_order_witness :
    ifList.Set ["wlan0"] "wlan1" = (none, ["wlan0", "wlan1"]) ∧
    ["wlan0", "wlan1", "wlan0"].foldl (fun l v => (ifList.Set l v).2) ([] : ifList)
      = ["wlan0", "wlan1", "wlan0"] :=
  ⟨ifList_Set_appends_in_order.1 ["wlan0"] "wlan1" (by decide),
   (ifList_Set_appends_in_order.2.1 ["wlan0", "wlan1", "wlan0"] (by decide)).1⟩

/-- C8: the public flag overrides the listen option.  On a command line that
`flag.Parse` accepts, every address `main` listens on is `0.0.0.0:8888` when
`public` is true, whatever the listen option, and the value of `listen`
otherwise; with at least one interface, a working directory and a positive
interval `main` does listen, once, after it has started the loop (for an
interval that is not positive the goroutine of the loop panics, before or
after `main` listens).  `public` is false unless the option is given, and is
the value of its last occurrence; `listen` is `127.0.0.1:8888` unless the
option is given, and is the value of its last occurrence. -/
theorem main_listen_address (args : List FlagOcc) (cwd : Except String String) (early : Bool)
    (f : Flags) (hp : flagParse args flagDefaults = .ok f) :
    (∀ addr, Action.listenAndServe addr ∈ main args cwd early →
      (f.public = true → addr = "0.0.0.0:8888") ∧ (f.public = false → addr = f.listen)) ∧
    (∀ dir, cwd = .ok dir → f.ifs ≠ [] → 0 < f.interval →
      ∃ addr, main args cwd early =
        [.storeNew 8, .goCollectLoop f.ifs f.interval, .listenAndServe addr]) ∧
    (∀ dir, cwd = .ok dir → f.ifs ≠ [] → f.interval ≤ 0 →
      (early = true →
        main args cwd early = [.storeNew 8, .goCollectLoop f.ifs f.interval, .goPanic]) ∧
      (early = false → ∃ addr, main args cwd early =
        [.storeNew 8, .goCollectLoop f.ifs f.interval, .listenAndServe addr, .goPanic])) ∧
    ((∀ b, FlagOcc.public b ∉ args) → f.public = false) ∧
    (∀ pre b post, args = pre ++ FlagOcc.public b :: post →
      (∀ b2, FlagOcc.public b2 ∉ post) → f.public = b) ∧
    ((∀ a, FlagOcc.listen a ∉ args) → f.listen = "127.0.0.1:8888") ∧
    (∀ pre a post, args = pre ++ FlagOcc.listen a :: post →
      (∀ a2, FlagOcc.listen a2 ∉ post) → f.listen = a) := by
  obtain ⟨-, -, -, hl, hb⟩ := flagParse_fields args flagDefaults f hp
  refine ⟨?_, ?_, ?_, ?_, ?_, ?_, ?_⟩
  · intro addr hmem
    obtain ⟨g, hg, -, rfl⟩ := main_listenAndServe_mem args cwd early addr hmem
    rw [hp] at hg
    cases hg
    constructor
    · intro h; simp [h]
    · intro h; simp [h]
  · intro dir hcwd hifs hpos
    subst hcwd
    exact ⟨_, main_of_started args dir early f hp hifs hpos⟩
  · intro dir hcwd hifs hint
    subst hcwd
    constructor
    · intro he
      subst he
      exact main_of_panic_early args dir f hp hifs hint
    · intro he
      subst he
      exact ⟨_, main_of_panic_late args dir f hp hifs hint⟩
  · intro h
    rw [hb, lastPublic_none args h]; rfl
  · intro pre b post hargs h
    rw [hb, hargs, lastPublic_append pre post b h]; rfl
  · intro h
    rw [hl, lastListen_none args h]; rfl
  · intro pre a post hargs h
    rw [hl, hargs, lastListen_append pre post a h]; rfl

/-- Witness of C8: the command line `-if wlan0 -listen 10.0.0.1:80 -public`,
on which `main` listens on `0.0.0.0:8888`, and the command line
`-if wlan0 -interval 0` when the goroutine panics first. -/
theorem main_listen_address_witness :
    Action.listenAndServe "0.0.0.0:8888" ∈
      main [.ifname "wlan0", .listen "10.0.0.1:80", .public true] (.ok "/srv") false ∧
    (∃ addr, main [.ifname "wlan0", .listen "10.0.0.1:80", .public true] (.ok "/srv") false =
      [.storeNew 8, .goCollectLoop ["wlan0"] (500 * Millisecond), .listenAndServe addr]) ∧
    (∀ addr, Action.listenAndServe addr ∈
        main [.ifname "wlan0", .listen "10.0.0.1:80", .public true] (.ok "/srv") false →
      addr = "0.0.0.0:8888") ∧
    main [.ifname "wlan0", .interval 0] (.ok "/srv") true =
      [.storeNew 8, .goCollectLoop ["wlan0"] 0, .goPanic] := by
  have h := main_listen_address
    [.ifname "wlan0", .listen "10.0.0.1:80", .public true] (.ok "/srv") false
    { ifs := ["wlan0"], interval := 500 * Millisecond, listen := "10.0.0.1:80", public := true }
    (by simp [flagParse, ifList.Set, flagDefaults])
  exact ⟨by decide, h.2.1 "/srv" rfl (by simp) (by decide),
    fun addr hmem => (h.1 addr hmem).1 rfl, by decide⟩

/-- C9: the sampling interval defaults to 500 ms.  On a command line that
`flag.Parse` accepts with at least one interface, `main` starts `collectLoop`
once, with the parsed list and the parsed interval, and `collectLoop` builds
its collectors from that list and its ticker with that interval: the ticker
runs with the interval passed when it is positive, and `time.NewTicker`
panics otherwise.  Without an interval option the interval passed is 500
milliseconds (500000000 ns) and the ticker is built with it; with the option
the interval passed is the duration of the last occurrence, and the ticker is
built with that duration when it is positive. -/
theorem main_interval_default (args : List FlagOcc) (dir : String) (early : Bool) (f : Flags)
    (hp : flagParse args flagDefaults = .ok f) (hifs : f.ifs ≠ []) :
    Action.goCollectLoop f.ifs f.interval ∈ main args (.ok dir) early ∧
    (∀ ifs d, Action.goCollectLoop ifs d ∈ main args (.ok dir) early →
      ifs = f.ifs ∧ d = f.interval) ∧
    (∀ (Sample Store : Type) (st : Store),
      (@collectLoop Sample Store st f.ifs f.interval).collectors = f.ifs.map Collector.mk ∧
      (0 < f.interval →
        (@collectLoop Sample Store st f.ifs f.interval).ticker = some f.interval ∧
        (@collectLoop Sample Store st f.ifs f.interval).pc = .range 0) ∧
      (f.interval ≤ 0 →
        (@collectLoop Sample Store st f.ifs f.interval).ticker = none ∧
        (@collectLoop Sample Store st f.ifs f.interval).pc = .panicked)) ∧
    ((∀ d, FlagOcc.interval d ∉ args) →
      f.interval = 500 * Millisecond ∧ f.interval = 500000000 ∧
      ∀ (Sample Store : Type) (st : Store),
        (@collectLoop Sample Store st f.ifs f.interval).ticker = some 500000000) ∧
    (∀ pre d post, args = pre ++ FlagOcc.interval d :: post →
      (∀ d2, FlagOcc.interval d2 ∉ post) →
      f.interval = d ∧
      ∀ (Sample Store : Type) (st : Store), 0 < d →
        (@collectLoop Sample Store st f.ifs f.interval).ticker = some d) := by
  obtain ⟨-, -, hi, -, -⟩ := flagParse_fields args flagDefaults f hp
  have hmem : Action.goCollectLoop f.ifs f.interval ∈ main args (.ok dir) early := by
    rcases main_of_cwd_ok args dir early f hp hifs with h | h | h <;>
      · rw [h]
        simp
  refine ⟨hmem, ?_, ?_, ?_, ?_⟩
  · intro ifs d h
    obtain ⟨g, hg, -, rfl, rfl⟩ := main_goCollectLoop_mem args (.ok dir) early ifs d h
    rw [hp] at hg
    cases hg
    exact ⟨rfl, rfl⟩
  · intro Sample Store st
    refine ⟨?_, ?_, ?_⟩
    · unfold collectLoop
      split <;> rfl
    · intro hpos
      have hint : ¬ f.interval ≤ 0 := by omega
      simp [collectLoop, hint]
    · intro hint
      simp [collectLoop, hint]
  · intro h
    have h5 : f.interval = 500000000 := by
      rw [hi, lastInterval_none args h]; rfl
    refine ⟨by rw [h5]; rfl, h5, ?_⟩
    intro Sample Store st
    simp [collectLoop, h5]
  · intro pre d post hargs h
    have hd : f.interval = d := by
      rw [hi, hargs, lastInterval_append pre post d h]; rfl
    refine ⟨hd, ?_⟩
    intro Sample Store st hpos
    have hint : ¬ d ≤ 0 := by omega
    simp [collectLoop, hd, hint]

/-- Witness of C9: the command lines `-if wlan0` and `-if wlan0 -interval 2s`,
with the tickers `collectLoop` builds for them. -/
theorem main_interval_default_witness :
    Action.goCollectLoop ["wlan0"] 500000000 ∈ main [.ifname "wlan0"] (.ok "/srv") false ∧
    (@collectLoop Nat (List Nat) [] ["wlan0"] 500000000).ticker = some 500000000 ∧
    Action.goCollectLoop ["wlan0"] 2000000000 ∈
      main [.ifname "wlan0", .interval 2000000000] (.ok "/srv") false ∧
    (@collectLoop Nat (List Nat) [] ["wlan0"] 2000000000).ticker = some 2000000000 :=
  ⟨(main_interval_default [.ifname "wlan0"] "/srv" false
      { ifs := ["wlan0"], interval := 500000000, listen := "127.0.0.1:8888", public := false }
      (by simp [flagParse, ifList.Set, flagDefaults, Millisecond]) (by simp)).1,
   ((main_interval_default [.ifname "wlan0"] "/srv" false
      { ifs := ["wlan0"], interval := 500000000, listen := "127.0.0.1:8888", public := false }
      (by simp [flagParse, ifList.Set, flagDefaults, Millisecond]) (by simp)).2.2.2.1
      (by simp)).2.2 Nat (List Nat) [],
   (main_interval_default [.ifname "wlan0", .interval 2000000000] "/srv" false
      { ifs := ["wlan0"], interval := 2000000000, listen := "127.0.0.1:8888", public := false }
      (by simp [flagParse, ifList.Set, flagDefaults]) (by simp)).1,
   (((main_interval_default [.ifname "wlan0", .interval 2000000000] "/srv" false
      { ifs := ["wlan0"], interval := 2000000000, listen := "127.0.0.1:8888", public := false }
      (by simp [flagParse, ifList.Set, flagDefaults]) (by simp)).2.2.1 Nat (List Nat) []).2.1
      (by decide)).1⟩

/-! ## Lemmas on `step` and `run` -/

section LoopLemmas

variable {Sample Store : Type}

theorem updatesOf_append (a b : List (Event Sample)) :
    updatesOf (a ++ b) = updatesOf a ++ updatesOf b := by
  induction a with
  | nil => rfl
  | cons e t ih => cases e <;> simp [updatesOf, ih]

theorem logsOf_append (a b : List (Event Sample)) :
    logsOf (a ++ b) = logsOf a ++ logsOf b := by
  induction a with
  | nil => rfl
  | cons e t ih => cases e <;> simp [logsOf, ih]

theorem collectsOf_append (a b : List (Event Sample)) :
    collectsOf (a ++ b) = collectsOf a ++ collectsOf b := by
  induction a with
  | nil => rfl
  | cons e t ih => cases e <;> simp [collectsOf, ih]

theorem ticksOf_append (a b : List (Event Sample)) :
    ticksOf (a ++ b) = ticksOf a + ticksOf b := by
  induction a with
  | nil => simp [ticksOf]
  | cons e t ih =>
    cases e
    all_goals simp [ticksOf, ih]
    omega

theorem step_wait (env : Env Sample Store) (s : LoopState Sample Store) (hpc : s.pc = .wait) :
    step env s = { s with pc := .range 0, trace := s.trace ++ [.tick],
                          passes := s.passes + 1, ticks := s.ticks + 1 } := by
  simp [step, hpc]

theorem step_blocked (env : Env Sample Store) (s : LoopState Sample Store) (j : Nat)
    (hpc : s.pc = .blocked j) : step env s = s := by
  simp [step, hpc]

theorem step_panicked (env : Env Sample Store) (s : LoopState Sample Store)
    (hpc : s.pc = .panicked) : step env s = s := by
  simp [step, hpc]

theorem step_range_end (env : Env Sample Store) (s : LoopState Sample Store) (j : Nat)
    (hpc : s.pc = .range j) (hc : s.collectors[j]? = none) :
    step env s = { s with pc := .wait } := by
  simp [step, hpc, hc]

theorem step_range_ok (env : Env Sample Store) (s : LoopState Sample Store) (j : Nat)
    (c : Collector) (sample : Sample)
    (hpc : s.pc = .range j) (hc : s.collectors[j]? = some c)
    (hr : env.Collect s.ticks j c = .ok sample) :
    step env s = { s with pc := .range (j + 1), st := env.Update s.st sample,
                          trace := s.trace ++ [.collect c, .update sample] } := by
  simp [step, hpc, hc, hr]

theorem step_range_notConnected (env : Env Sample Store) (s : LoopState Sample Store) (j : Nat)
    (c : Collector) (e : GoError)
    (hpc : s.pc = .range j) (hc : s.collectors[j]? = some c)
    (hr : env.Collect s.ticks j c = .err e) (he : errorsIs e .ErrNotConnected = true) :
    step env s = { s with pc := .range (j + 1), trace := s.trace ++ [.collect c] } := by
  simp [step, hpc, hc, hr, he]

theorem step_range_failure (env : Env Sample Store) (s : LoopState Sample Store) (j : Nat)
    (c : Collector) (e : GoError)
    (hpc : s.pc = .range j) (hc : s.collectors[j]? = some c)
    (hr : env.Collect s.ticks j c = .err e) (he : errorsIs e .ErrNotConnected = false) :
    step env s = { s with pc := .range (j + 1),
                          trace := s.trace ++ [.collect c, .logPrintf c.IfName e] } := by
  simp [step, hpc, hc, hr, he]

theorem step_range_hang (env : Env Sample Store) (s : LoopState Sample Store) (j : Nat)
    (c : Collector)
    (hpc : s.pc = .range j) (hc : s.collectors[j]? = some c)
    (hr : env.Collect s.ticks j c = .hang) :
    step env s = { s with pc := .blocked j, trace := s.trace ++ [.collect c] } := by
  simp [step, hpc, hc, hr]

theorem run_add (env : Env Sample Store) (m n : Nat) :
    ∀ s : LoopState Sample Store, run env (m + n) s = run env n (run env m s) := by
  induction m with
  | zero => intro s; simp [run]
  | succ m ih =>
    intro s
    have h : m + 1 + n = (m + n) + 1 := by omega
    rw [h]
    simp only [run]
    exact ih (step env s)

theorem run_succ_last (env : Env Sample Store) (n : Nat) (s : LoopState Sample Store) :
    run env (n + 1) s = step env (run env n s) := by
  rw [run_add env n 1 s]
  rfl

theorem run_blocked (env : Env Sample Store) (j : Nat) :
    ∀ (n : Nat) (s : LoopState Sample Store), s.pc = .blocked j → run env n s = s := by
  intro n
  induction n with
  | zero => intro s _; rfl
  | succ n ih =>
    intro s hpc
    simp only [run]
    rw [step_blocked env s j hpc]
    exact ih s hpc

theorem run_panicked (env : Env Sample Store) :
    ∀ (n : Nat) (s : LoopState Sample Store), s.pc = .panicked → run env n s = s := by
  intro n
  induction n with
  | zero => intro s _; rfl
  | succ n ih =>
    intro s hpc
    simp only [run]
    rw [step_panicked env s hpc]
    exact ih s hpc

theorem step_collectors (env : Env Sample Store) (s : LoopState Sample Store) :
    (step env s).collectors = s.collectors := by
  unfold step
  repeat' split
  all_goals rfl

theorem run_collectors (env : Env Sample Store) :
    ∀ (n : Nat) (s : LoopState Sample Store), (run env n s).collectors = s.collectors := by
  intro n
  induction n with
  | zero => intro s; rfl
  | succ n ih =>
    intro s
    simp only [run]
    rw [ih (step env s), step_collectors]

theorem updatesOf_passEvents (env : Env Sample Store) (k : Nat) (cs : List Collector) :
    ∀ j, allReturn env k j cs = true →
      updatesOf (passEvents env k j cs) = okSamplesFrom env k j cs := by
  induction cs with
  | nil => intro j _; rfl
  | cons c rest ih =>
    intro j h
    cases hr : env.Collect k j c with
    | hang => simp [allReturn, hr] at h
    | ok sample =>
      simp only [allReturn, hr] at h
      simp [passEvents, okSamplesFrom, hr, updatesOf, ih (j + 1) h]
    | err e =>
      simp only [allReturn, hr] at h
      by_cases he : errorsIs e .ErrNotConnected = true
      · simp [passEvents, okSamplesFrom, hr, he, updatesOf, ih (j + 1) h]
      · simp [passEvents, okSamplesFrom, hr, he, updatesOf, ih (j + 1) h]

theorem collectsOf_passEvents (env : Env Sample Store) (k : Nat) (cs : List Collector) :
    ∀ j, allReturn env k j cs = true → collectsOf (passEvents env k j cs) = cs := by
  induction cs with
  | nil => intro j _; rfl
  | cons c rest ih =>
    intro j h
    cases hr : env.Collect k j c with
    | hang => simp [allReturn, hr] at h
    | ok sample =>
      simp only [allReturn, hr] at h
      simp [passEvents, hr, collectsOf, ih (j + 1) h]
    | err e =>
      simp only [allReturn, hr] at h
      by_cases he : errorsIs e .ErrNotConnected = true
      · simp [passEvents, hr, he, collectsOf, ih (j + 1) h]
      · simp [passEvents, hr, he, collectsOf, ih (j + 1) h]

theorem ticksOf_passEvents (env : Env Sample Store) (k : Nat) (cs : List Collector) :
    ∀ j, ticksOf (passEvents env k j cs) = 0 := by
  induction cs with
  | nil => intro j; rfl
  | cons c rest ih =>
    intro j
    cases hr : env.Collect k j c with
    | hang => simp [passEvents, hr, ticksOf]
    | ok sample => simp [passEvents, hr, ticksOf, ih (j + 1)]
    | err e =>
      by_cases he : errorsIs e .ErrNotConnected = true
      · simp [passEvents, hr, he, ticksOf, ih (j + 1)]
      · simp [passEvents, hr, he, ticksOf, ih (j + 1)]

/-- The iterations of the range loop for a segment `cs` of the collectors
whose calls all return: `cs.length` transitions from position `j`. -/
theorem run_range (env : Env Sample Store) (cs : List Collector) :
    ∀ (s : LoopState Sample Store) (j : Nat), s.pc = .range j →
      (∃ post, s.collectors.drop j = cs ++ post) →
      allReturn env s.ticks j cs = true →
      run env cs.length s =
        { s with pc := .range (j + cs.length),
                 st := (okSamplesFrom env s.ticks j cs).foldl env.Update s.st,
                 trace := s.trace ++ passEvents env s.ticks j cs } := by
  induction cs with
  | nil =>
    intro s j hpc _ _
    simp [run, okSamplesFrom, passEvents, ← hpc]
  | cons c rest ih =>
    intro s j hpc hseg hret
    obtain ⟨post, hpost⟩ := hseg
    have hc : s.collectors[j]? = some c := by
      have h0 : (s.collectors.drop j)[0]? = some c := by rw [hpost]; simp
      simpa using h0
    have hseg2 : ∀ t : LoopState Sample Store, t.collectors = s.collectors →
        ∃ post2, t.collectors.drop (j + 1) = rest ++ post2 := by
      intro t ht
      refine ⟨post, ?_⟩
      have h1 : s.collectors.drop (j + 1) = (s.collectors.drop j).drop 1 := by
        rw [List.drop_drop]
      rw [ht, h1, hpost]
      rfl
    simp only [List.length_cons, run]
    cases hr : env.Collect s.ticks j c with
    | hang => simp [allReturn, hr] at hret
    | ok sample =>
      simp only [allReturn, hr] at hret
      have hs := step_range_ok env s j c sample hpc hc hr
      have h2 := ih (step env s) (j + 1) (by rw [hs]) (hseg2 _ (by rw [hs]))
        (by rw [hs]; exact hret)
      rw [h2, hs]
      simp [okSamplesFrom, passEvents, hr, Nat.add_assoc, Nat.add_comm 1]
    | err e =>
      simp only [allReturn, hr] at hret
      by_cases he : errorsIs e .ErrNotConnected = true
      · have hs := step_range_notConnected env s j c e hpc hc hr he
        have h2 := ih (step env s) (j + 1) (by rw [hs]) (hseg2 _ (by rw [hs]))
          (by rw [hs]; exact hret)
        rw [h2, hs]
        simp [okSamplesFrom, passEvents, hr, he, Nat.add_assoc, Nat.add_comm 1]
      · have he2 : errorsIs e .ErrNotConnected = false := by simpa using he
        have hs := step_range_failure env s j c e hpc hc hr he2
        have h2 := ih (step env s) (j + 1) (by rw [hs]) (hseg2 _ (by rw [hs]))
          (by rw [hs]; exact hret)
        rw [h2, hs]
        simp [okSamplesFrom, passEvents, hr, he2, Nat.add_assoc, Nat.add_comm 1]

theorem okSamplesFrom_append (env : Env Sample Store) (k : Nat) (a b : List Collector) :
    ∀ j, okSamplesFrom env k j (a ++ b) =
      okSamplesFrom env k j a ++ okSamplesFrom env k (j + a.length) b := by
  induction a with
  | nil => intro j; simp [okSamplesFrom]
  | cons c rest ih =>
    intro j
    have hlen : j + (rest.length + 1) = j + 1 + rest.length := by omega
    cases hr : env.Collect k j c <;>
      simp [okSamplesFrom, hr, ih (j + 1), hlen]

/-- A collector whose call does not return a sample adds nothing to the
samples of a pass: they are those of the collectors before it followed by
those of the collectors after it. -/
theorem okSamplesFrom_skip (env : Env Sample Store) (k j : Nat) (cs : List Collector)
    (c : Collector) (hc : cs[j]? = some c) (hr : ∀ sample, env.Collect k j c ≠ .ok sample) :
    okSamplesFrom env k 0 cs =
      okSamplesFrom env k 0 (cs.take j) ++ okSamplesFrom env k (j + 1) (cs.drop (j + 1)) := by
  have hj : j < cs.length := by
    rcases Nat.lt_or_ge j cs.length with h | h
    · exact h
    · rw [List.getElem?_eq_none h] at hc; cases hc
  have hsplit : cs = cs.take j ++ (c :: cs.drop (j + 1)) := by
    have h1 : cs.drop j = c :: cs.drop (j + 1) := by
      rw [List.drop_eq_getElem_cons hj]
      have h2 : cs[j]? = some cs[j] := List.getElem?_eq_getElem hj
      rw [h2] at hc
      cases hc
      rfl
    rw [← h1, List.take_append_drop]
  have hlen : (cs.take j).length = j := by
    rw [List.length_take]; omega
  conv_lhs => rw [hsplit]
  rw [okSamplesFrom_append, hlen, Nat.zero_add]
  congr 1
  cases hout : env.Collect k j c with
  | ok sample => exact absurd hout (hr sample)
  | err e => simp [okSamplesFrom, hout]
  | hang => simp [okSamplesFrom, hout]

/-- One full pass whose calls all return: from position 0 to the receive of
line 94. -/
theorem run_pass (env : Env Sample Store) (s : LoopState Sample Store)
    (hpc : s.pc = .range 0) (hret : allReturn env s.ticks 0 s.collectors = true) :
    run env (s.collectors.length + 1) s =
      { s with pc := .wait,
               st := (okSamplesFrom env s.ticks 0 s.collectors).foldl env.Update s.st,
               trace := s.trace ++ passEvents env s.ticks 0 s.collectors } := by
  rw [run_succ_last, run_range env s.collectors s 0 hpc ⟨[], by simp⟩ hret]
  rw [step_range_end env _ (0 + s.collectors.length) rfl (by simp)]

/-- The counters agree with the trace and with each other once the loop is
entered, and every transition keeps that. -/
theorem step_counters (env : Env Sample Store) (s : LoopState Sample Store)
    (h : s.passes = s.ticks + 1 ∧ ticksOf s.trace = s.ticks) :
    (step env s).passes = (step env s).ticks + 1 ∧
      ticksOf (step env s).trace = (step env s).ticks := by
  obtain ⟨h1, h2⟩ := h
  unfold step
  repeat' split
  all_goals simp [ticksOf_append, ticksOf, h1, h2]

theorem run_counters (env : Env Sample Store) :
    ∀ (n : Nat) (s : LoopState Sample Store),
      s.passes = s.ticks + 1 ∧ ticksOf s.trace = s.ticks →
      (run env n s).passes = (run env n s).ticks + 1 ∧
        ticksOf (run env n s).trace = (run env n s).ticks := by
  intro n
  induction n with
  | zero => intro s h; exact h
  | succ n ih =>
    intro s h
    simp only [run]
    exact ih (step env s) (step_counters env s h)

/-- The first `n` rounds of the loop when every call returns: each round is
one full pass, the exit of the range loop and the receipt of one tick. -/
theorem run_rounds (env : Env Sample Store) (st : Store) (ifs : List String) (interval : Int)
    (hpos : 0 < interval) :
    ∀ n, (∀ k, k < n → allReturn env k 0 (ifs.map Collector.mk) = true) →
      (run env ((ifs.length + 2) * n) (collectLoop st ifs interval)).pc = .range 0 ∧
      (run env ((ifs.length + 2) * n) (collectLoop st ifs interval)).ticks = n ∧
      (run env ((ifs.length + 2) * n) (collectLoop st ifs interval)).collectors
        = ifs.map Collector.mk ∧
      (run env ((ifs.length + 2) * n) (collectLoop st ifs interval)).trace
        = loopTrace env (ifs.map Collector.mk) n := by
  intro n
  induction n with
  | zero =>
    intro _
    have h : ¬ interval ≤ 0 := by omega
    simp [run, collectLoop, h, loopTrace]
  | succ n ih =>
    intro hret
    obtain ⟨h1, h2, h3, h4⟩ := ih (fun k hk => hret k (Nat.lt_succ_of_lt hk))
    have hsteps : (ifs.length + 2) * (n + 1)
        = (ifs.length + 2) * n + ((ifs.length + 1) + 1) := by ring
    have hlen : (run env ((ifs.length + 2) * n) (collectLoop st ifs interval)).collectors.length
        = ifs.length := by rw [h3]; simp
    have hr : allReturn env (run env ((ifs.length + 2) * n) (collectLoop st ifs interval)).ticks 0
        (run env ((ifs.length + 2) * n) (collectLoop st ifs interval)).collectors = true := by
      rw [h2, h3]; exact hret n (Nat.lt_succ_self n)
    have hp := run_pass env _ h1 hr
    rw [hlen] at hp
    rw [hsteps, run_add, run_succ_last, hp, step_wait env _ rfl]
    simp [h2, h3, h4, loopTrace]

end LoopLemmas

/-! ## The scheduler loop -/

section LoopClaims

variable {Sample Store : Type}

/-- C1: in any pass, when `Collect` for the collector at position `j` returns
an error that is or wraps `ErrNotConnected`, the iteration makes no
`Store.Update` call (the store is left as it was) and no `log.Printf` call,
and the range loop goes on with position `j + 1`. -/
theorem collectLoop_skips_not_connected (env : Env Sample Store) (s : LoopState Sample Store)
    (j : Nat) (c : Collector) (e : GoError)
    (hpc : s.pc = .range j) (hc : s.collectors[j]? = some c)
    (hr : env.Collect s.ticks j c = .err e) (he : errorsIs e .ErrNotConnected = true) :
    step env s = { s with pc := .range (j + 1), trace := s.trace ++ [.collect c] } ∧
    (step env s).st = s.st ∧
    updatesOf (step env s).trace = updatesOf s.trace ∧
    logsOf (step env s).trace = logsOf s.trace ∧
    (step env s).pc = .range (j + 1) := by
  have h := step_range_notConnected env s j c e hpc hc hr he
  refine ⟨h, ?_, ?_, ?_, ?_⟩ <;> rw [h]
  · simp [updatesOf_append, updatesOf]
  · simp [logsOf_append, logsOf]

/-- Witness of C1: position 1 of the example, whose error wraps the
sentinel, reached after the iteration for position 0. -/
theorem collectLoop_skips_not_connected_witness :
    (step exampleEnv (step exampleEnv exampleStart)).st = (step exampleEnv exampleStart).st ∧
    logsOf (step exampleEnv (step exampleEnv exampleStart)).trace = [] ∧
    updatesOf (step exampleEnv (step exampleEnv exampleStart)).trace = [1] := by
  have h := collectLoop_skips_not_connected exampleEnv (step exampleEnv exampleStart) 1
    { IfName := "wlan1" } (.wrap "wlan1: link down" .ErrNotConnected) rfl rfl rfl rfl
  exact ⟨h.2.1, h.2.2.2.1.trans rfl, h.2.2.1.trans rfl⟩

/-- C2: in any pass, when `Collect` for the collector at position `j` returns
an error that neither is nor wraps `ErrNotConnected`, the iteration makes no
`Store.Update` call, makes exactly one `log.Printf` call, with the name of
that interface and the error, and the range loop goes on with position
`j + 1`.  In a pass of which every call returns, the `Update` calls are those
for the collectors before position `j` followed by those for the collectors
after it, each decided by the result of its own call, and the pass ends at
the receive from the ticker. -/
theorem collectLoop_logs_collect_failure (env : Env Sample Store) (s : LoopState Sample Store)
    (j : Nat) (c : Collector) (e : GoError)
    (hpc : s.pc = .range j) (hc : s.collectors[j]? = some c)
    (hr : env.Collect s.ticks j c = .err e) (he : errorsIs e .ErrNotConnected = false) :
    step env s = { s with pc := .range (j + 1),
                          trace := s.trace ++ [.collect c, .logPrintf c.IfName e] } ∧
    (step env s).st = s.st ∧
    updatesOf (step env s).trace = updatesOf s.trace ∧
    logsOf (step env s).trace = logsOf s.trace ++ [(c.IfName, e)] ∧
    (step env s).pc = .range (j + 1) ∧
    (∀ s0 : LoopState Sample Store, s0.pc = .range 0 → s0.collectors = s.collectors →
      s0.ticks = s.ticks → allReturn env s.ticks 0 s.collectors = true →
      (run env (s.collectors.length + 1) s0).pc = .wait ∧
      updatesOf (run env (s.collectors.length + 1) s0).trace =
        updatesOf s0.trace ++
          (okSamplesFrom env s.ticks 0 (s.collectors.take j) ++
            okSamplesFrom env s.ticks (j + 1) (s.collectors.drop (j + 1)))) := by
  have h := step_range_failure env s j c e hpc hc hr he
  refine ⟨h, ?_, ?_, ?_, ?_, ?_⟩
  · rw [h]
  · rw [h]; simp [updatesOf_append, updatesOf]
  · rw [h]; simp [logsOf_append, logsOf]
  · rw [h]
  · intro s0 h0 hcs hk hret
    have hp := run_pass env s0 h0 (by rw [hk, hcs]; exact hret)
    rw [hcs, hk] at hp
    rw [hp]
    refine ⟨rfl, ?_⟩
    simp only [updatesOf_append]
    rw [updatesOf_passEvents env s.ticks s.collectors 0 hret]
    rw [okSamplesFrom_skip env s.ticks j s.collectors c hc (by intro sample; rw [hr]; simp)]

/-- Witness of C2: position 2 of the example, which fails with an error
other than the sentinel, reached after the iterations for positions 0 and 1. -/
theorem collectLoop_logs_collect_failure_witness :
    logsOf (run exampleEnv 3 exampleStart).trace = [("wlan2", .other "exit status 1")] ∧
    updatesOf (run exampleEnv 3 exampleStart).trace = [1] ∧
    (run exampleEnv 5 exampleStart).pc = .wait ∧
    updatesOf (run exampleEnv 5 exampleStart).trace = [1, 7] := by
  have h := collectLoop_logs_collect_failure exampleEnv (run exampleEnv 2 exampleStart) 2
    { IfName := "wlan2" } (.other "exit status 1") rfl rfl rfl rfl
  have h2 := h.2.2.2.2.2 exampleStart rfl rfl rfl rfl
  exact ⟨h.2.2.2.1.trans rfl, h.2.2.1.trans rfl, h2.1, h2.2.trans rfl⟩

/-- C3 as stated fails: with two collectors of which the first never returns
from `Collect` and the second would return the sample 7, the second is never
invoked and no sample is ever passed to `Store.Update`, however many
transitions the loop makes. -/
theorem collectLoop_hung_collector_counterexample :
    ¬ ∃ n : Nat,
      Collector.mk "wlan1" ∈
          collectsOf (run hungEnv n (collectLoop [] ["wlan0", "wlan1"] 500000000)).trace ∨
        updatesOf (run hungEnv n (collectLoop [] ["wlan0", "wlan1"] 500000000)).trace ≠ [] := by
  rintro ⟨n, h⟩
  cases n with
  | zero => revert h; decide
  | succ n =>
    have h1 : run hungEnv (n + 1) (collectLoop [] ["wlan0", "wlan1"] 500000000)
        = step hungEnv (collectLoop [] ["wlan0", "wlan1"] 500000000) := by
      simp only [run]
      exact run_blocked hungEnv 0 n _ rfl
    rw [h1] at h
    revert h
    decide

/-- C3, amended: a `Collect` call that never returns stalls the pass.  In a
pass in which the calls for the positions before `i` return and the call for
position `i` never returns, the loop stays inside that call for ever: the
collectors invoked in the pass are those at positions `0` to `i` and no
other, the `Update` calls of the pass are those for the successful collectors
before position `i`, and no further tick is received. -/
theorem collectLoop_hung_collector_stalls_pass (env : Env Sample Store)
    (s : LoopState Sample Store) (i : Nat) (c : Collector) (n : Nat)
    (hpc : s.pc = .range 0) (hc : s.collectors[i]? = some c)
    (hret : allReturn env s.ticks 0 (s.collectors.take i) = true)
    (hhang : env.Collect s.ticks i c = .hang) (hn : i + 1 ≤ n) :
    (run env n s).pc = .blocked i ∧
    collectsOf (run env n s).trace = collectsOf s.trace ++ s.collectors.take (i + 1) ∧
    updatesOf (run env n s).trace =
      updatesOf s.trace ++ okSamplesFrom env s.ticks 0 (s.collectors.take i) ∧
    (run env n s).st = (okSamplesFrom env s.ticks 0 (s.collectors.take i)).foldl env.Update s.st ∧
    (run env n s).ticks = s.ticks := by
  have hi : i < s.collectors.length := by
    rcases Nat.lt_or_ge i s.collectors.length with h | h
    · exact h
    · rw [List.getElem?_eq_none h] at hc; cases hc
  have hlen : (s.collectors.take i).length = i := by
    rw [List.length_take]; omega
  have hseg := run_range env (s.collectors.take i) s 0 hpc ⟨s.collectors.drop i, by simp⟩ hret
  rw [hlen] at hseg
  have hstep := step_range_hang env (run env i s) (0 + i) c (by rw [hseg]) (by
    rw [hseg]; simpa using hc) (by rw [hseg]; simpa using hhang)
  obtain ⟨m, rfl⟩ : ∃ m, n = i + 1 + m := ⟨n - (i + 1), by omega⟩
  have hrun : run env (i + 1 + m) s = step env (run env i s) := by
    rw [run_add, run_succ_last]
    exact run_blocked env (0 + i) m _ (by rw [hstep])
  have htake : s.collectors.take (i + 1) = s.collectors.take i ++ [c] := by
    rw [List.take_succ, hc]; rfl
  rw [hrun, hstep, hseg]
  refine ⟨by simp, ?_, ?_, rfl, rfl⟩
  · simp only [collectsOf_append, collectsOf_passEvents env s.ticks _ 0 hret, collectsOf, htake,
      List.append_assoc]
  · simp only [updatesOf_append, updatesOf_passEvents env s.ticks _ 0 hret, updatesOf,
      List.append_nil]

/-- Witness of C3, amended: the example in which position 0 never returns,
after 9 transitions. -/
theorem collectLoop_hung_collector_stalls_pass_witness :
    (run hungEnv 9 (collectLoop [] ["wlan0", "wlan1"] 500000000)).pc = .blocked 0 ∧
    collectsOf (run hungEnv 9 (collectLoop [] ["wlan0", "wlan1"] 500000000)).trace
      = [{ IfName := "wlan0" }] ∧
    updatesOf (run hungEnv 9 (collectLoop [] ["wlan0", "wlan1"] 500000000)).trace = [] := by
  have h := collectLoop_hung_collector_stalls_pass hungEnv
    (collectLoop [] ["wlan0", "wlan1"] 500000000) 0 { IfName := "wlan0" } 9
    rfl rfl rfl rfl (by decide)
  exact ⟨h.1, h.2.1.trans rfl, h.2.2.1.trans rfl⟩

/-- C4: the `Update` calls of a pass are the samples of the successful
collectors, in list order.  From the start of a pass, once the calls for the
first `j` collectors have returned, the samples passed to `Store.Update` in
the pass are exactly the samples `Collect` returned with a nil error for
these collectors, each once, unchanged and in the order of the list, and the
store is the result of these calls; after the last collector the loop waits
for the ticker without another call.  The list holds one collector per name
given to `collectLoop`, in the same order and with duplicates; it is the same
in every pass; and the names are the values of the `-if` occurrences of the
command line, in order. -/
theorem collectLoop_updates_in_list_order :
    (∀ (env : Env Sample Store) (s : LoopState Sample Store) (j : Nat),
      s.pc = .range 0 → j ≤ s.collectors.length →
      allReturn env s.ticks 0 (s.collectors.take j) = true →
      (run env j s).pc = .range j ∧
      updatesOf (run env j s).trace =
        updatesOf s.trace ++ okSamplesFrom env s.ticks 0 (s.collectors.take j) ∧
      (run env j s).st =
        (okSamplesFrom env s.ticks 0 (s.collectors.take j)).foldl env.Update s.st ∧
      (j = s.collectors.length →
        (run env (j + 1) s).pc = .wait ∧
        (run env (j + 1) s).trace = (run env j s).trace ∧
        (run env (j + 1) s).st = (run env j s).st)) ∧
    (∀ (st : Store) (ifs : List String) (interval : Int),
      (@collectLoop Sample Store st ifs interval).collectors = ifs.map Collector.mk) ∧
    (∀ (env : Env Sample Store) (n : Nat) (s : LoopState Sample Store),
      (run env n s).collectors = s.collectors) ∧
    (∀ (args : List FlagOcc) (cwd : Except String String) (early : Bool) (ifs : List String)
      (interval : Int),
      Action.goCollectLoop ifs interval ∈ main args cwd early → ifs = ifValues args) := by
  refine ⟨?_, ?_, ?_, ?_⟩
  · intro env s j hpc hj hret
    have hlen : (s.collectors.take j).length = j := by
      rw [List.length_take]; omega
    have hseg := run_range env (s.collectors.take j) s 0 hpc ⟨s.collectors.drop j, by simp⟩ hret
    rw [hlen] at hseg
    refine ⟨by rw [hseg]; simp, ?_, by rw [hseg], ?_⟩
    · rw [hseg]
      simp only [updatesOf_append, updatesOf_passEvents env s.ticks _ 0 hret]
    · intro hjl
      have hend := step_range_end env (run env j s) (0 + j) (by rw [hseg])
        (by rw [hseg]; simp [hjl])
      rw [run_succ_last, hend]
      exact ⟨rfl, rfl, rfl⟩
  · intro st ifs interval
    unfold collectLoop
    split <;> rfl
  · intro env n s
    exact run_collectors env n s
  · intro args cwd early ifs interval hmem
    obtain ⟨f, hp, -, rfl, -⟩ := main_goCollectLoop_mem args cwd early ifs interval hmem
    have h1 := (flagParse_fields args flagDefaults f hp).1
    simpa [flagDefaults] using h1

/-- Witness of C4: the first pass of the example over its four collectors,
the first and the last of which succeed. -/
theorem collectLoop_updates_in_list_order_witness :
    updatesOf (run exampleEnv 4 exampleStart).trace = [1, 7] ∧
    (run exampleEnv 4 exampleStart).st = [1, 7] ∧
    (run exampleEnv 5 exampleStart).pc = .wait := by
  have h := (@collectLoop_updates_in_list_order Nat (List Nat)).1 exampleEnv exampleStart 4
    rfl (by decide) rfl
  exact ⟨h.2.1.trans rfl, h.2.2.1.trans rfl, (h.2.2.2 rfl).1⟩

/-- C10 as stated fails for an interval that is not positive:
`time.NewTicker` panics before the first pass, so no pass is ever started
(the count of passes stays 0, not the count of ticks plus one) and `Collect`
is never called. -/
theorem collectLoop_nonpositive_interval_counterexample :
    (collectLoop ([] : List Nat) ["wlan0"] 0 : LoopState Nat (List Nat)).passes ≠
        (collectLoop ([] : List Nat) ["wlan0"] 0 : LoopState Nat (List Nat)).ticks + 1 ∧
    ¬ ∃ n : Nat,
      (run exampleEnv n (collectLoop [] ["wlan0"] 0)).passes ≠ 0 ∨
      (run exampleEnv n (collectLoop [] ["wlan0"] 0)).trace ≠ [] := by
  refine ⟨by decide, ?_⟩
  rintro ⟨n, h⟩
  rw [run_panicked exampleEnv n _ rfl] at h
  revert h
  decide

/-- C10, amended: for a positive interval `collectLoop` starts its first pass
at once, with no tick received; in every state it reaches, the number of
passes started is the number of ticks received plus one, and the ticks
received are those of the trace; the transition of a state waiting on the
ticker is the receipt of a tick, which makes no `Store.Update` call and
leaves the store as it was; and when every `Collect` call returns, the trace
after `n` rounds is `n` times one full pass over all collectors followed by
one tick. -/
theorem collectLoop_one_pass_per_tick (env : Env Sample Store) (st : Store)
    (ifs : List String) (interval : Int) (hpos : 0 < interval) :
    ((collectLoop st ifs interval : LoopState Sample Store).pc = .range 0 ∧
      (collectLoop st ifs interval : LoopState Sample Store).trace = [] ∧
      (collectLoop st ifs interval : LoopState Sample Store).passes = 1 ∧
      (collectLoop st ifs interval : LoopState Sample Store).ticks = 0) ∧
    (∀ n, (run env n (collectLoop st ifs interval)).passes
        = (run env n (collectLoop st ifs interval)).ticks + 1 ∧
      ticksOf (run env n (collectLoop st ifs interval)).trace
        = (run env n (collectLoop st ifs interval)).ticks) ∧
    (∀ s : LoopState Sample Store, s.pc = .wait →
      (step env s).st = s.st ∧ updatesOf (step env s).trace = updatesOf s.trace ∧
      (step env s).trace = s.trace ++ [.tick] ∧ (step env s).pc = .range 0) ∧
    (∀ n, (∀ k, k < n → allReturn env k 0 (ifs.map Collector.mk) = true) →
      (run env ((ifs.length + 2) * n) (collectLoop st ifs interval)).pc = .range 0 ∧
      (run env ((ifs.length + 2) * n) (collectLoop st ifs interval)).ticks = n ∧
      (run env ((ifs.length + 2) * n) (collectLoop st ifs interval)).trace
        = loopTrace env (ifs.map Collector.mk) n) := by
  have hint : ¬ interval ≤ 0 := by omega
  refine ⟨by simp [collectLoop, hint], ?_, ?_, ?_⟩
  · intro n
    exact run_counters env n _ (by simp [collectLoop, hint, ticksOf])
  · intro s hpc
    rw [step_wait env s hpc]
    simp [updatesOf_append, updatesOf]
  · intro n hret
    obtain ⟨h1, h2, -, h4⟩ := run_rounds env st ifs interval hpos n hret
    exact ⟨h1, h2, h4⟩

/-- Witness of C10, amended: the example after two rounds (12 transitions). -/
theorem collectLoop_one_pass_per_tick_witness :
    (run exampleEnv 12 exampleStart).passes = 3 ∧
    (run exampleEnv 12 exampleStart).ticks = 2 ∧
    updatesOf (run exampleEnv 12 exampleStart).trace = [1, 7, 11, 7] := by
  have h := collectLoop_one_pass_per_tick exampleEnv ([] : List Nat)
    ["wlan0", "wlan1", "wlan2", "wlan0"] 500000000 (by decide)
  have h2 := h.2.2.2 2 (by decide)
  exact ⟨(h.2.1 12).1.trans rfl, h2.2.1, (congrArg updatesOf h2.2.2).trans rfl⟩

end LoopClaims

end WifiRadar
